import Mathlib

/-!
Shallow embedding of the inventory service in
madebygps/functions-cosmos-inventory.

The embedding covers:
* the Cosmos document model (`Doc`, `Value`) and the container collaborator
  (`Container.*`), modelled from the documented contract of
  azure.cosmos ContainerProxy: point create/read/replace/delete keyed by
  (id, partition key), atomic single-partition batches, conditional writes
  via version tokens, and paged queries;
* the pydantic model `Item` (src/model/inventory_item.py);
* the service layer `CosmosService.*` (src/service/cosmosdb_service.py);
* the HTTP handlers relevant to the claims (src/function_app.py).

Timestamps are modelled as naturals (`Time`); a `Value.time t` stands for
the ISO-8601 string encoding of timestamp `t` produced by
jsonable_encoder / datetime.isoformat (the encoding is injective, so value
equality of encodings coincides with equality of timestamps).  Python
floats (price, cost) are never computed with, only carried, and are
modelled as scaled integers.  Store exceptions are a small error type
`StoreError`; a Python `raise ValueError(msg)` in the service is
`SvcError.valueError msg`, while a store exception that the service does
not catch is `SvcError.raw e`.  Stateful code is state-passing over
`Store`; every service operation returns its result together with the
store it leaves behind.
-/

/-- Wall-clock timestamps, abstracted to naturals. -/
abbrev Time := Nat

/-- JSON-ish field values of a stored Cosmos document. -/
inductive Value where
  | null
  | str (s : String)
  | num (n : Int)
  | time (t : Time)
  | strList (xs : List String)
  | obj (m : List (String × String))
deriving DecidableEq, Repr

/-- A Cosmos document: an ordered key/value record, as a Python dict. -/
abbrev Doc := List (String × Value)

/-- Dictionary lookup, first matching key. -/
def docGet : Doc → String → Option Value
  | [], _ => none
  | (k', v) :: rest, k => if k' = k then some v else docGet rest k

/-- Python dict .get: missing key reads as None. -/
def docGetD (d : Doc) (k : String) : Value :=
  (docGet d k).getD Value.null

/-- Python dict assignment: update the key in place, else append at the end. -/
def docSet : Doc → String → Value → Doc
  | [], k, v => [(k, v)]
  | (k', v') :: rest, k, v =>
    if k' = k then (k, v) :: rest else (k', v') :: docSet rest k v

/-- The pydantic Item model (src/model/inventory_item.py). -/
structure Item where
  id : String
  name : String
  category : String
  document_type : String := "item"
  description : Option String := none
  quantity : Int := 0
  price : Int
  cost : Int
  supplier_id : Option String := none
  location : Option String := none
  tags : List String := []
  status : String := "in_stock"
  reorder_point : Option Int := none
  created_at : Time
  updated_at : Option Time := none
  metadata : Option (List (String × String)) := some []
deriving DecidableEq, Repr

/-- Allowed values of the status field (validate_status). -/
def allowedStatuses : List String := ["in_stock", "low_stock", "out_of_stock"]

/-- The validate_status field validator. -/
def validStatus (s : String) : Bool := allowedStatuses.contains s

/-- Encoding of an optional string field. -/
def optStr : Option String → Value
  | none => Value.null
  | some s => Value.str s

/-- Encoding of an optional numeric field. -/
def optNum : Option Int → Value
  | none => Value.null
  | some n => Value.num n

/-- Encoding of an optional timestamp field. -/
def optTime : Option Time → Value
  | none => Value.null
  | some t => Value.time t

/-- Encoding of the optional metadata dict. -/
def optObj : Option (List (String × String)) → Value
  | none => Value.null
  | some m => Value.obj m

/-- jsonable_encoder(item): the document sent to the store for an Item. -/
def itemToDoc (it : Item) : Doc :=
  [ ("id", Value.str it.id),
    ("name", Value.str it.name),
    ("category", Value.str it.category),
    ("document_type", Value.str it.document_type),
    ("description", optStr it.description),
    ("quantity", Value.num it.quantity),
    ("price", Value.num it.price),
    ("cost", Value.num it.cost),
    ("supplier_id", optStr it.supplier_id),
    ("location", optStr it.location),
    ("tags", Value.strList it.tags),
    ("status", Value.str it.status),
    ("reorder_point", optNum it.reorder_point),
    ("created_at", Value.time it.created_at),
    ("updated_at", optTime it.updated_at),
    ("metadata", optObj it.metadata) ]

/-- Read a required string field (pydantic: missing or wrong type fails). -/
def getStr (d : Doc) (k : String) : Except String String :=
  match docGet d k with
  | some (Value.str s) => Except.ok s
  | _ => Except.error ("field " ++ k ++ " missing or not a string")

/-- Read a string field with a default for a missing key. -/
def getStrD (d : Doc) (k : String) (dflt : String) : Except String String :=
  match docGet d k with
  | none => Except.ok dflt
  | some (Value.str s) => Except.ok s
  | some _ => Except.error ("field " ++ k ++ " not a string")

/-- Read an optional string field. -/
def getOptStr (d : Doc) (k : String) : Except String (Option String) :=
  match docGet d k with
  | none => Except.ok none
  | some Value.null => Except.ok none
  | some (Value.str s) => Except.ok (some s)
  | some _ => Except.error ("field " ++ k ++ " not a string")

/-- Read a required numeric field. -/
def getNum (d : Doc) (k : String) : Except String Int :=
  match docGet d k with
  | some (Value.num n) => Except.ok n
  | _ => Except.error ("field " ++ k ++ " missing or not a number")

/-- Read a numeric field with a default for a missing key. -/
def getNumD (d : Doc) (k : String) (dflt : Int) : Except String Int :=
  match docGet d k with
  | none => Except.ok dflt
  | some (Value.num n) => Except.ok n
  | some _ => Except.error ("field " ++ k ++ " not a number")

/-- Read an optional numeric field. -/
def getOptNum (d : Doc) (k : String) : Except String (Option Int) :=
  match docGet d k with
  | none => Except.ok none
  | some Value.null => Except.ok none
  | some (Value.num n) => Except.ok (some n)
  | some _ => Except.error ("field " ++ k ++ " not a number")

/-- Read a list-of-strings field with default []. -/
def getTagsD (d : Doc) (k : String) : Except String (List String) :=
  match docGet d k with
  | none => Except.ok []
  | some (Value.strList xs) => Except.ok xs
  | some _ => Except.error ("field " ++ k ++ " not a list")

/-- Read a required timestamp field. -/
def getTime (d : Doc) (k : String) : Except String Time :=
  match docGet d k with
  | some (Value.time t) => Except.ok t
  | _ => Except.error ("field " ++ k ++ " missing or not a timestamp")

/-- Read an optional timestamp field. -/
def getOptTime (d : Doc) (k : String) : Except String (Option Time) :=
  match docGet d k with
  | none => Except.ok none
  | some Value.null => Except.ok none
  | some (Value.time t) => Except.ok (some t)
  | some _ => Except.error ("field " ++ k ++ " not a timestamp")

/-- Read the optional metadata dict. -/
def getOptObj (d : Doc) (k : String) : Except String (Option (List (String × String))) :=
  match docGet d k with
  | none => Except.ok (some [])
  | some Value.null => Except.ok none
  | some (Value.obj m) => Except.ok (some m)
  | some _ => Except.error ("field " ++ k ++ " not a dict")

/-- Item(**response): rebuild a pydantic Item from a stored document.
    Unknown keys (such as the _etag system property) are ignored; the
    status validator runs again; created_at is required (the model's
    default_factory expression for it is ill-formed Python and can never
    supply a value). pydantic ValidationError is a subclass of ValueError,
    which is how callers of this parse treat its failure. -/
def docToItem (d : Doc) : Except String Item := do
  let id ← getStr d "id"
  let name ← getStr d "name"
  let category ← getStr d "category"
  let document_type ← getStrD d "document_type" "item"
  let description ← getOptStr d "description"
  let quantity ← getNumD d "quantity" 0
  let price ← getNum d "price"
  let cost ← getNum d "cost"
  let supplier_id ← getOptStr d "supplier_id"
  let location ← getOptStr d "location"
  let tags ← getTagsD d "tags"
  let status ← getStrD d "status" "in_stock"
  if validStatus status then
    let reorder_point ← getOptNum d "reorder_point"
    let created_at ← getTime d "created_at"
    let updated_at ← getOptTime d "updated_at"
    let metadata ← getOptObj d "metadata"
    Except.ok { id := id, name := name, category := category,
                document_type := document_type, description := description,
                quantity := quantity, price := price, cost := cost,
                supplier_id := supplier_id, location := location,
                tags := tags, status := status,
                reorder_point := reorder_point, created_at := created_at,
                updated_at := updated_at, metadata := metadata }
  else
    Except.error "Status must be one of the allowed statuses"

/-- Parse every result document of a batch, failing on the first bad one. -/
def parseAll : List Doc → Except String (List Item)
  | [] => Except.ok []
  | d :: rest => do
    let it ← docToItem d
    let its ← parseAll rest
    Except.ok (it :: its)

/-- Errors raised by the store collaborator (azure.cosmos exceptions). -/
inductive StoreError where
  | resourceExists
  | notFound
  | accessConditionFailed
  | http (code : Nat)
deriving DecidableEq, Repr

/-- The document store: the container's documents, a counter generating
    fresh version tokens, and a count of batch calls issued (used to state
    that an operation issues no batch to the store). -/
structure Store where
  docs : List Doc
  nextEtag : Nat := 0
  batchCalls : Nat := 0
deriving DecidableEq, Repr

/-- The version token minted for the n-th write. -/
def etagValue (n : Nat) : Value := Value.str (toString n)

/-- Does document d have the given id and partition key? -/
def docMatches (id pk : String) (d : Doc) : Bool :=
  decide (docGet d "id" = some (Value.str id) ∧
          docGet d "category" = some (Value.str pk))

/-- Point lookup by (id, partition key). -/
def findDoc (s : Store) (id pk : String) : Option Doc :=
  s.docs.find? (docMatches id pk)

/-- Replace the first document matching (id, pk). -/
def replaceDocs : List Doc → String → String → Doc → List Doc
  | [], _, _, _ => []
  | d :: rest, id, pk, nd =>
    if docMatches id pk d then nd :: rest else d :: replaceDocs rest id pk nd

/-- Remove the first document matching (id, pk). -/
def removeDocs : List Doc → String → String → List Doc
  | [], _, _ => []
  | d :: rest, id, pk =>
    if docMatches id pk d then rest else d :: removeDocs rest id pk

/-- ContainerProxy.create_item: insert a new document in partition pk.
    The document's partition-key attribute must agree with pk, the identity
    (id, pk) must be fresh (else CosmosResourceExistsError), and the store
    stamps a fresh version token (_etag) into the stored document. -/
def Container.create_item (body : Doc) (pk : String) (s : Store) :
    Except StoreError (Doc × Store) :=
  match docGet body "id" with
  | some (Value.str id) =>
    if docGetD body "category" = Value.str pk then
      match findDoc s id pk with
      | some _ => Except.error StoreError.resourceExists
      | none =>
        let stored := docSet body "_etag" (etagValue s.nextEtag)
        Except.ok (stored,
          { s with docs := s.docs ++ [stored], nextEtag := s.nextEtag + 1 })
    else Except.error (StoreError.http 400)
  | _ => Except.error (StoreError.http 400)

/-- ContainerProxy.read_item: point read, CosmosResourceNotFoundError when
    absent. -/
def Container.read_item (id pk : String) (s : Store) : Except StoreError Doc :=
  match findDoc s id pk with
  | some d => Except.ok d
  | none => Except.error StoreError.notFound

/-- ContainerProxy.replace_item: full overwrite of the document at
    (id, pk).  The body must carry the same id and partition-key value;
    when a version token is supplied with MatchConditions.IfNotModified the
    write only applies if it equals the stored _etag, otherwise
    CosmosAccessConditionFailedError; a fresh _etag is stamped on success. -/
def Container.replace_item (id : String) (body : Doc) (pk : String)
    (etag : Option String) (s : Store) : Except StoreError (Doc × Store) :=
  match findDoc s id pk with
  | none => Except.error StoreError.notFound
  | some d =>
    if docGetD body "id" = Value.str id then
      if docGetD body "category" = Value.str pk then
        let condOk : Bool :=
          match etag with
          | none => true
          | some e => decide (docGetD d "_etag" = Value.str e)
        if condOk then
          let nd := docSet body "_etag" (etagValue s.nextEtag)
          Except.ok (nd,
            { s with docs := replaceDocs s.docs id pk nd,
                     nextEtag := s.nextEtag + 1 })
        else Except.error StoreError.accessConditionFailed
      else Except.error (StoreError.http 400)
    else Except.error (StoreError.http 400)

/-- ContainerProxy.delete_item: point delete, CosmosResourceNotFoundError
    when absent. -/
def Container.delete_item (id pk : String) (s : Store) :
    Except StoreError Store :=
  match findDoc s id pk with
  | some _ =>
    Except.ok { s with docs := removeDocs s.docs id pk }
  | none => Except.error StoreError.notFound

/-- One operation of a transactional batch. -/
inductive BatchOp where
  | create (body : Doc)
  | replace (id : String) (body : Doc)
  | read (id : String)
  | delete (id : String)
deriving DecidableEq, Repr

/-- Apply one batch operation against the partition pk. -/
def applyOp (pk : String) (s : Store) : BatchOp → Except Unit (Doc × Store)
  | BatchOp.create body =>
    match Container.create_item body pk s with
    | Except.ok r => Except.ok r
    | Except.error _ => Except.error ()
  | BatchOp.replace id body =>
    match Container.replace_item id body pk none s with
    | Except.ok r => Except.ok r
    | Except.error _ => Except.error ()
  | BatchOp.read id =>
    match Container.read_item id pk s with
    | Except.ok d => Except.ok (d, s)
    | Except.error _ => Except.error ()
  | BatchOp.delete id =>
    match Container.delete_item id pk s with
    | Except.ok s' => Except.ok ([], s')
    | Except.error _ => Except.error ()

/-- Run the operations of a batch in order, reporting the index of the
    first failing operation. -/
def runBatch (pk : String) : List BatchOp → Store → Nat →
    Except Nat (List Doc × Store)
  | [], s, _ => Except.ok ([], s)
  | op :: rest, s, i =>
    match applyOp pk s op with
    | Except.ok (d, s') =>
      match runBatch pk rest s' (i + 1) with
      | Except.ok (ds, s'') => Except.ok (d :: ds, s'')
      | Except.error j => Except.error j
    | Except.error _ => Except.error i

/-- ContainerProxy.execute_item_batch: a transactional batch scoped to one
    partition.  Atomic: if any operation fails, no operation of the batch
    applies (CosmosBatchOperationError carrying error_index); the call is
    counted either way. -/
def Container.execute_item_batch (ops : List BatchOp) (pk : String)
    (s : Store) : Except Nat (List Doc) × Store :=
  match runBatch pk ops s 0 with
  | Except.ok (ds, s') =>
    (Except.ok ds, { s' with batchCalls := s.batchCalls + 1 })
  | Except.error i =>
    (Except.error i, { s with batchCalls := s.batchCalls + 1 })

/-- Errors surfaced by the service layer to its HTTP callers: a raised
    ValueError (carrying its message), a store exception the service did
    not translate, or an AttributeError raised by the service's own code
    (also uncaught: it is not a ValueError). -/
inductive SvcError where
  | valueError (msg : String)
  | raw (e : StoreError)
  | attributeError (msg : String)
deriving DecidableEq, Repr

/-- Message of the AttributeError raised when update_item or patch_item
    builds the request options with a version token supplied: the source
    evaluates exceptions.MatchConditions.IfNotModified, but the
    azure.cosmos.exceptions module has no MatchConditions attribute (that
    enum lives in azure.core), so the lookup raises before any store call. -/
def matchConditionsMsg : String :=
  "module azure.cosmos.exceptions has no attribute MatchConditions"

/-- Group a list by a string key, in order of first occurrence of each key,
    appending within a group — the semantics of the Python idiom
    items_by_category.setdefault(key, []).append(item) over an
    insertion-ordered dict. -/
def addToGroups (key : α → String) (groups : List (String × List α))
    (x : α) : List (String × List α) :=
  match groups with
  | [] => [(key x, [x])]
  | (c, xs) :: rest =>
    if c = key x then (c, xs ++ [x]) :: rest
    else (c, xs) :: addToGroups key rest x

/-- Build the per-category groups for a list. -/
def groupByKey (key : α → String) (items : List α) :
    List (String × List α) :=
  items.foldl (addToGroups key) []

/-- items_by_category for a list of Items. -/
def groupByCategory (items : List Item) : List (String × List Item) :=
  groupByKey Item.category items

/-- Process per-category groups in order: one call to f per group,
    accumulating results; the first group failure aborts the loop (the
    exception propagates), leaving the store as the failing call left it. -/
def runGroups (f : String → List α → Store → Except SvcError (List β) × Store) :
    List (String × List α) → Store → Except SvcError (List β) × Store
  | [], s => (Except.ok [], s)
  | (pk, xs) :: rest, s =>
    match f pk xs s with
    | (Except.ok ys, s1) =>
      match runGroups f rest s1 with
      | (Except.ok more, s2) => (Except.ok (ys ++ more), s2)
      | (Except.error e, s2) => (Except.error e, s2)
    | (Except.error e, s1) => (Except.error e, s1)

/-- One group of batch_create_items: a single transactional create batch
    for the group's partition, then Item(**r) over the results; a
    CosmosBatchOperationError is re-raised as ValueError (the message in
    the source interpolates the failing operation response; the model
    keeps the failing index). -/
def createGroup (pk : String) (its : List Item) (s : Store) :
    Except SvcError (List Item) × Store :=
  match Container.execute_item_batch
      (its.map fun i => BatchOp.create (itemToDoc i)) pk s with
  | (Except.ok ds, s1) =>
    match parseAll ds with
    | Except.ok parsed => (Except.ok parsed, s1)
    | Except.error m => (Except.error (SvcError.valueError m), s1)
  | (Except.error i, s1) =>
    (Except.error (SvcError.valueError ("Batch failed: operation " ++ toString i)), s1)

/-- CosmosService.batch_create_items. -/
def CosmosService.batch_create_items (items : List Item) (s : Store) :
    Except SvcError (List Item) × Store :=
  runGroups createGroup (groupByCategory items) s

/-- One group of batch_update_items: a single transactional replace batch. -/
def replaceGroup (pk : String) (its : List Item) (s : Store) :
    Except SvcError (List Item) × Store :=
  match Container.execute_item_batch
      (its.map fun i => BatchOp.replace i.id (itemToDoc i)) pk s with
  | (Except.ok ds, s1) =>
    match parseAll ds with
    | Except.ok parsed => (Except.ok parsed, s1)
    | Except.error m => (Except.error (SvcError.valueError m), s1)
  | (Except.error i, s1) =>
    (Except.error (SvcError.valueError ("Batch failed: operation " ++ toString i)), s1)

/-- CosmosService.batch_update_items (no timestamp stamping happens here;
    the HTTP layer stamps before calling). -/
def CosmosService.batch_update_items (items : List Item) (s : Store) :
    Except SvcError (List Item) × Store :=
  runGroups replaceGroup (groupByCategory items) s

/-- A requested key for batch read/delete: the {"id": ..., "category": ...}
    dicts of the request body. -/
structure BatchKey where
  id : String
  category : String
deriving DecidableEq, Repr

/-- One group of batch_read_items: a single transactional read batch. -/
def readGroup (pk : String) (ks : List BatchKey) (s : Store) :
    Except SvcError (List Item) × Store :=
  match Container.execute_item_batch
      (ks.map fun k => BatchOp.read k.id) pk s with
  | (Except.ok ds, s1) =>
    match parseAll ds with
    | Except.ok parsed => (Except.ok parsed, s1)
    | Except.error m => (Except.error (SvcError.valueError m), s1)
  | (Except.error i, s1) =>
    (Except.error (SvcError.valueError ("Batch failed: operation " ++ toString i)), s1)

/-- CosmosService.batch_read_items. -/
def CosmosService.batch_read_items (keys : List BatchKey) (s : Store) :
    Except SvcError (List Item) × Store :=
  runGroups readGroup (groupByKey BatchKey.category keys) s

/-- One group of batch_delete_items: a single transactional delete batch;
    on success the group's requested keys are returned. -/
def deleteGroup (pk : String) (ks : List BatchKey) (s : Store) :
    Except SvcError (List BatchKey) × Store :=
  match Container.execute_item_batch
      (ks.map fun k => BatchOp.delete k.id) pk s with
  | (Except.ok _, s1) => (Except.ok ks, s1)
  | (Except.error i, s1) =>
    (Except.error (SvcError.valueError ("Batch failed: operation " ++ toString i)), s1)

/-- CosmosService.batch_delete_items. -/
def CosmosService.batch_delete_items (keys : List BatchKey) (s : Store) :
    Except SvcError (List BatchKey) × Store :=
  runGroups deleteGroup (groupByKey BatchKey.category keys) s

/-- CosmosService.create_item: one durable write; only
    CosmosResourceExistsError is translated (to ValueError), other store
    errors propagate. -/
def CosmosService.create_item (item : Item) (s : Store) :
    Except SvcError Item × Store :=
  match Container.create_item (itemToDoc item) item.category s with
  | Except.ok (d, s') =>
    match docToItem d with
    | Except.ok it => (Except.ok it, s')
    | Except.error m => (Except.error (SvcError.valueError m), s')
  | Except.error StoreError.resourceExists =>
    (Except.error (SvcError.valueError
      ("Item with id " ++ item.id ++ " already exists")), s)
  | Except.error e => (Except.error (SvcError.raw e), s)

/-- CosmosService.get_item: point read; CosmosResourceNotFoundError is
    absorbed into None. -/
def CosmosService.get_item (item_id category : String) (s : Store) :
    Except SvcError (Option Item) × Store :=
  match Container.read_item item_id category s with
  | Except.ok d =>
    match docToItem d with
    | Except.ok it => (Except.ok (some it), s)
    | Except.error m => (Except.error (SvcError.valueError m), s)
  | Except.error _ => (Except.ok none, s)

/-- CosmosService.delete_item: True when a document was removed, False on
    CosmosResourceNotFoundError. -/
def CosmosService.delete_item (item_id category : String) (s : Store) :
    Except SvcError Bool × Store :=
  match Container.delete_item item_id category s with
  | Except.ok s' => (Except.ok true, s')
  | Except.error _ => (Except.ok false, s)

/-- CosmosService.update_item: full replace with immutable-field checks
    and timestamp overwrite.  The existence read happens at
    (item.id, item.category).  After the checks the source builds the
    request options: when an etag is supplied it evaluates
    exceptions.MatchConditions.IfNotModified, an attribute the module does
    not have, so an uncaught AttributeError is raised before the replace
    is ever issued — the conditional write never happens.  With no etag
    the options stay empty and the replace is unconditional; its not-found
    and precondition except clauses translate to ValueError (the
    precondition clause is unreachable through this path), and any other
    CosmosHttpResponseError is re-raised untranslated. -/
def CosmosService.update_item (item : Item) (etag : Option String)
    (now : Time) (s : Store) : Except SvcError Item × Store :=
  match CosmosService.get_item item.id item.category s with
  | (Except.error e, s1) => (Except.error e, s1)
  | (Except.ok none, s1) =>
    (Except.error (SvcError.valueError
      ("Item with id " ++ item.id ++ " not found")), s1)
  | (Except.ok (some existing), s1) =>
    if item.category ≠ existing.category then
      (Except.error (SvcError.valueError "Cannot change category on update"), s1)
    else if item.created_at ≠ existing.created_at then
      (Except.error (SvcError.valueError "Cannot modify created_at on update"), s1)
    else
      let item2 := { item with updated_at := some now }
      match etag with
      | some _ => (Except.error (SvcError.attributeError matchConditionsMsg), s1)
      | none =>
        match Container.replace_item item.id (itemToDoc item2) item.category none s1 with
        | Except.ok (d, s2) =>
          match docToItem d with
          | Except.ok it => (Except.ok it, s2)
          | Except.error m => (Except.error (SvcError.valueError m), s2)
        | Except.error StoreError.notFound =>
          (Except.error (SvcError.valueError
            ("Item with id " ++ item.id ++ " not found")), s1)
        | Except.error StoreError.accessConditionFailed =>
          (Except.error (SvcError.valueError
            "Update conflict: resource was modified by another process"), s1)
        | Except.error e => (Except.error (SvcError.raw e), s1)

/-- The value fieldChanges carries for a key, Python dict lookup. -/
def updatesGet (updates : List (String × Value)) (k : String) : Option Value :=
  (updates.find? fun kv => kv.1 = k).map Prod.snd

/-- The guard of patch_item's created_at rejection:
    'created_at' in updates and updates['created_at'] != existing.get('created_at'). -/
def createdAtViolation (updates : List (String × Value)) (existing : Doc) : Bool :=
  match updatesGet updates "created_at" with
  | some v => decide (v ≠ docGetD existing "created_at")
  | none => false

/-- CosmosService.patch_item: read-merge-replace.  The read and the replace
    are not wrapped in any try/except, so their store exceptions cross the
    service boundary untranslated.  The category guard compares the stored
    document's category with the category argument (not with the incoming
    fieldChanges); the created_at guard compares an incoming created_at
    with the stored one; then every pair of fieldChanges is merged over the
    stored document and updated_at is overwritten with now.  Building the
    request options with an etag supplied raises the same uncaught
    AttributeError as update_item (exceptions.MatchConditions does not
    exist), before the replace; with no etag the replace is issued
    unconditionally. -/
def CosmosService.patch_item (item_id category : String)
    (updates : List (String × Value)) (etag : Option String) (now : Time)
    (s : Store) : Except SvcError Item × Store :=
  match Container.read_item item_id category s with
  | Except.error e => (Except.error (SvcError.raw e), s)
  | Except.ok existing =>
    if docGetD existing "category" ≠ Value.str category then
      (Except.error (SvcError.valueError "Cannot change category on patch"), s)
    else if createdAtViolation updates existing then
      (Except.error (SvcError.valueError "Cannot modify created_at on patch"), s)
    else
      let merged := updates.foldl (fun d kv => docSet d kv.1 kv.2) existing
      let merged2 := docSet merged "updated_at" (Value.time now)
      match etag with
      | some _ => (Except.error (SvcError.attributeError matchConditionsMsg), s)
      | none =>
        match Container.replace_item item_id merged2 category none s with
        | Except.ok (d, s2) =>
          match docToItem d with
          | Except.ok it => (Except.ok it, s2)
          | Except.error m => (Except.error (SvcError.valueError m), s2)
        | Except.error e => (Except.error (SvcError.raw e), s)

/-- Does a stored document match the optional category filter of the list
    query (SELECT * FROM c WHERE c.category = @category)? -/
def matchesCategory (category : Option String) (d : Doc) : Bool :=
  match category with
  | none => true
  | some c => decide (docGet d "category" = some (Value.str c))

/-- The continuation token list_items extracts after draining the query:
    getattr(query_response, 'response_headers', {}).get('x-ms-continuation').
    The AsyncItemPaged object returned by query_items has no
    response_headers attribute, so the getattr default {} applies and the
    lookup always yields None. -/
def queryContinuationHeader : Option String := none

/-- CosmosService.list_items.  The async for loop drains the AsyncItemPaged
    iterator returned by query_items, which yields every matching document
    across all result pages; max_item_count only sizes the pages fetched
    from the backend, and the drained output is the full match set.  The
    max_items and continuation_token arguments therefore do not bound the
    returned window. -/
def CosmosService.list_items (category : Option String) (max_items : Nat)
    (continuation_token : Option String) (s : Store) :
    Except SvcError (List Item × Option String) × Store :=
  match parseAll (s.docs.filter (matchesCategory category)) with
  | Except.ok items => (Except.ok (items, queryContinuationHeader), s)
  | Except.error m => (Except.error (SvcError.valueError m), s)

/-- str(e) of an untranslated store exception, as the HTTP layer exposes it
    in the 500 detail. -/
def describeStoreError : StoreError → String
  | StoreError.resourceExists => "Entity already exists"
  | StoreError.notFound => "Entity with the specified id does not exist"
  | StoreError.accessConditionFailed => "Precondition failed"
  | StoreError.http code => "Http response error " ++ toString code

/-- An HTTP response of the FastAPI layer: success with a body, or an
    HTTPException with a status code and detail. -/
inductive HttpResponse where
  | success (code : Nat) (body : List Item)
  | failure (code : Nat) (detail : String)
deriving DecidableEq, Repr

/-- The status code of a response. -/
def HttpResponse.statusCode : HttpResponse → Nat
  | HttpResponse.success c _ => c
  | HttpResponse.failure c _ => c

/-- The common handler wrapper of the batch endpoints: ValueError becomes
    400, any other exception becomes 500 with str(e) as detail. -/
def toHttp (okCode : Nat) (r : Except SvcError (List Item) × Store) :
    HttpResponse × Store :=
  match r with
  | (Except.ok its, s') => (HttpResponse.success okCode its, s')
  | (Except.error (SvcError.valueError m), s') => (HttpResponse.failure 400 m, s')
  | (Except.error (SvcError.raw e), s') =>
    (HttpResponse.failure 500 (describeStoreError e), s')
  | (Except.error (SvcError.attributeError m), s') =>
    (HttpResponse.failure 500 m, s')

/-- POST /api/items: 201 on success, ValueError → 400, other → 500. -/
def httpCreateItem (item : Item) (s : Store) : HttpResponse × Store :=
  match CosmosService.create_item item s with
  | (Except.ok it, s') => (HttpResponse.success 201 [it], s')
  | (Except.error (SvcError.valueError m), s') => (HttpResponse.failure 400 m, s')
  | (Except.error (SvcError.raw e), s') =>
    (HttpResponse.failure 500 (describeStoreError e), s')
  | (Except.error (SvcError.attributeError m), s') =>
    (HttpResponse.failure 500 m, s')

/-- The stamping loop of the PUT /api/items/batch handler:
    for item in items: item.updated_at = datetime.now(timezone.utc).
    Each iteration makes its own call to datetime.now; clock i is the value
    returned by the i-th call (successive readings of a monotone clock). -/
def stampFrom (clock : Nat → Time) (i : Nat) : List Item → List Item
  | [] => []
  | it :: rest =>
    { it with updated_at := some (clock i) } :: stampFrom clock (i + 1) rest

/-- Stamp every item of the request body, in order, with its own clock
    reading. -/
def stampUpdatedAt (clock : Nat → Time) (items : List Item) : List Item :=
  stampFrom clock 0 items

/-- PUT /api/items/batch: stamp updated_at on each item, then call the
    service. -/
def httpBatchUpdateItems (clock : Nat → Time) (items : List Item)
    (s : Store) : HttpResponse × Store :=
  toHttp 200 (CosmosService.batch_update_items (stampUpdatedAt clock items) s)

/-- A request payload for POST /api/items, with one entry per field the
    caller may supply; none means the field is absent from the body. -/
structure Payload where
  id : Option String := none
  name : Option String := none
  category : Option String := none
  description : Option String := none
  quantity : Option Int := none
  price : Option Int := none
  cost : Option Int := none
  status : Option String := none
deriving DecidableEq, Repr

/-- Construction of an Item from a request payload by pydantic.  Required
    fields without defaults: name, category, price, cost.  id defaults to a
    generated uuid4 string (genId); status defaults to in_stock and is then
    checked by validate_status; created_at defaults to the time of creation
    (the source expression for this default, Field(default_factory=
    datetime.now(datetime.timezone.utc)), is ill-formed Python — datetime
    here is the class, which has no timezone attribute — its intent per the
    surrounding code is the current UTC time); updated_at defaults to None. -/
def Item.fromPayload (genId : String) (now : Time) (p : Payload) :
    Except String Item :=
  match p.name, p.category, p.price, p.cost with
  | some name, some category, some price, some cost =>
    let status := p.status.getD "in_stock"
    if validStatus status then
      Except.ok { id := p.id.getD genId, name := name, category := category,
                  document_type := "item", description := p.description,
                  quantity := p.quantity.getD 0, price := price, cost := cost,
                  supplier_id := none, location := none, tags := [],
                  status := status, reorder_point := none,
                  created_at := now, updated_at := none, metadata := some [] }
    else Except.error "Status must be one of the allowed statuses"
  | _, _, _, _ => Except.error "validation error: missing required field"

/-- Whether a payload is missing one of the fields the model requires. -/
def Payload.missingRequired (p : Payload) : Bool :=
  p.name.isNone || p.category.isNone || p.price.isNone || p.cost.isNone

/-- Sample item: the Widget of the spec's create example, with the cost
    the model additionally requires (9.99 and 5.00 as scaled integers). -/
def itemW : Item :=
  { id := "w1", name := "Widget", category := "tools", price := 999,
    cost := 500, created_at := 10 }

/-- Sample electronics item. -/
def itemE1 : Item :=
  { id := "e1", name := "Camera", category := "electronics", price := 19900,
    cost := 11000, created_at := 10 }

/-- Second sample electronics item. -/
def itemE2 : Item :=
  { id := "e2", name := "Phone", category := "electronics", price := 29900,
    cost := 21000, created_at := 10 }

/-- The stored document of itemW after creation (version token 0). -/
def docW : Doc := docSet (itemToDoc itemW) "_etag" (etagValue 0)

/-- A store holding only the Widget. -/
def storeW : Store := { docs := [docW], nextEtag := 1, batchCalls := 0 }

/-- A store holding two electronics items. -/
def storeE : Store :=
  { docs := [docSet (itemToDoc itemE1) "_etag" (etagValue 0),
             docSet (itemToDoc itemE2) "_etag" (etagValue 1)],
    nextEtag := 2, batchCalls := 0 }

/-- Parsing a stored document that was produced by encoding an Item and
stamping a version token yields the original Item back, provided its
status passes the validator (which it must to parse at all). -/
theorem docToItem_roundtrip (it : Item) (v : Value) :
    docToItem (docSet (itemToDoc it) "_etag" v) =
      if validStatus it.status then Except.ok it
      else Except.error "Status must be one of the allowed statuses" := by
  obtain ⟨i, n, c, dt, desc, q, p, co, sup, loc, tg, st, rp, ca, ua, md⟩ := it
  cases desc <;> cases sup <;> cases loc <;> cases rp <;> cases ua <;> cases md <;>
    simp [docToItem, itemToDoc, docSet, docGet, getStr, getStrD, getOptStr,
          getNum, getNumD, getOptNum, getTagsD, getTime, getOptTime, getOptObj,
          optStr, optNum, optTime, optObj, bind, Except.bind]

/-- Inversion of a successful point create: the stored document is the
body with a fresh version token, appended to the container. -/
theorem create_item_ok {body : Doc} {pk : String} {s : Store} {d : Doc} {s' : Store}
    (h : Container.create_item body pk s = Except.ok (d, s')) :
    d = docSet body "_etag" (etagValue s.nextEtag)
    ∧ s' = { s with docs := s.docs ++ [d], nextEtag := s.nextEtag + 1 } := by
  unfold Container.create_item at h
  repeat' split at h
  all_goals simp_all
  obtain ⟨h1, h2⟩ := h
  subst h1
  exact h2.symm

/-- Inversion of a successful create operation inside a batch. -/
theorem applyOp_create_ok {pk : String} {s : Store} {body : Doc} {d : Doc} {s' : Store}
    (h : applyOp pk s (BatchOp.create body) = Except.ok (d, s')) :
    d = docSet body "_etag" (etagValue s.nextEtag)
    ∧ s' = { s with docs := s.docs ++ [d], nextEtag := s.nextEtag + 1 } := by
  simp only [applyOp] at h
  split at h
  · rename_i heq
    simp only [Except.ok.injEq] at h
    subst h
    exact create_item_ok heq
  · exact Except.noConfusion h

/-- Running a batch of creates only adds documents: every document present
before is still present after. -/
theorem runBatch_create_mono {pk : String} :
    ∀ (its : List Item) (s : Store) (n : Nat) (ds : List Doc) (s' : Store),
      runBatch pk (its.map fun i => BatchOp.create (itemToDoc i)) s n
        = Except.ok (ds, s') →
      ∀ d ∈ s.docs, d ∈ s'.docs := by
  intro its
  induction its with
  | nil =>
    intro s n ds s' h d hd
    simp only [List.map_nil, runBatch] at h
    simp only [Except.ok.injEq, Prod.mk.injEq] at h
    rw [← h.2]
    exact hd
  | cons it rest ih =>
    intro s n ds s' h d hd
    simp only [List.map_cons, runBatch] at h
    cases happ : applyOp pk s (BatchOp.create (itemToDoc it)) with
    | error e => rw [happ] at h; exact Except.noConfusion h
    | ok r =>
      obtain ⟨d0, s0⟩ := r
      rw [happ] at h
      dsimp only at h
      cases hrest : runBatch pk (rest.map fun i => BatchOp.create (itemToDoc i)) s0 (n + 1) with
      | error j => rw [hrest] at h; dsimp only at h; exact Except.noConfusion h
      | ok r2 =>
        obtain ⟨ds2, s2⟩ := r2
        rw [hrest] at h
        dsimp only at h
        simp only [Except.ok.injEq, Prod.mk.injEq] at h
        obtain ⟨hshape, hstore⟩ := applyOp_create_ok happ
        have hd0 : d ∈ s0.docs := by
          rw [hstore]
          simp only [List.mem_append]
          exact Or.inl hd
        have := ih s0 (n + 1) ds2 s2 hrest d hd0
        rw [← h.2]
        exact this

/-- The result documents of a successful create batch parse back exactly
to the submitted items. -/
theorem runBatch_create_parse {pk : String} :
    ∀ (its : List Item) (s : Store) (n : Nat) (ds : List Doc) (s' : Store)
      (parsed : List Item),
      runBatch pk (its.map fun i => BatchOp.create (itemToDoc i)) s n
        = Except.ok (ds, s') →
      parseAll ds = Except.ok parsed → parsed = its := by
  intro its
  induction its with
  | nil =>
    intro s n ds s' parsed h hp
    simp only [List.map_nil, runBatch] at h
    simp only [Except.ok.injEq, Prod.mk.injEq] at h
    rw [← h.1] at hp
    simp only [parseAll, Except.ok.injEq] at hp
    exact hp.symm
  | cons it rest ih =>
    intro s n ds s' parsed h hp
    simp only [List.map_cons, runBatch] at h
    cases happ : applyOp pk s (BatchOp.create (itemToDoc it)) with
    | error e => rw [happ] at h; exact Except.noConfusion h
    | ok r =>
      obtain ⟨d0, s0⟩ := r
      rw [happ] at h
      dsimp only at h
      cases hrest : runBatch pk (rest.map fun i => BatchOp.create (itemToDoc i)) s0 (n + 1) with
      | error j => rw [hrest] at h; dsimp only at h; exact Except.noConfusion h
      | ok r2 =>
        obtain ⟨ds2, s2⟩ := r2
        rw [hrest] at h
        dsimp only at h
        simp only [Except.ok.injEq, Prod.mk.injEq] at h
        obtain ⟨hshape, _⟩ := applyOp_create_ok happ
        rw [← h.1] at hp
        simp only [parseAll, bind, Except.bind] at hp
        rw [hshape, docToItem_roundtrip] at hp
        by_cases hv : validStatus it.status
        · rw [if_pos hv] at hp
          cases hrec : parseAll ds2 with
          | error m => rw [hrec] at hp; exact Except.noConfusion hp
          | ok ps =>
            rw [hrec] at hp
            simp only [Except.ok.injEq] at hp
            have hps := ih s0 (n + 1) ds2 s2 ps hrest hrec
            rw [← hp, hps]
        · rw [if_neg hv] at hp
          exact Except.noConfusion hp

/-- Atomicity of a transactional batch: a failed batch call leaves the
container documents unchanged (the batch is rolled back as a whole). -/
theorem execute_error_docs {ops : List BatchOp} {pk : String} {s : Store}
    {i : Nat} {s' : Store}
    (h : Container.execute_item_batch ops pk s = (Except.error i, s')) :
    s'.docs = s.docs := by
  unfold Container.execute_item_batch at h
  split at h
  · exact absurd h (by simp)
  · simp only [Prod.mk.injEq] at h
    rw [← h.2]

/-- A batch call made of creates never removes a document, whether it
commits or rolls back. -/
theorem execute_create_mono {its : List Item} {pk : String} {s : Store}
    {r : Except Nat (List Doc)} {s' : Store}
    (h : Container.execute_item_batch (its.map fun i => BatchOp.create (itemToDoc i)) pk s
          = (r, s')) :
    ∀ d ∈ s.docs, d ∈ s'.docs := by
  unfold Container.execute_item_batch at h
  split at h
  · rename_i ds s1 heq
    simp only [Prod.mk.injEq] at h
    intro d hd
    have := runBatch_create_mono its s 0 ds s1 heq d hd
    rw [← h.2]
    exact this
  · simp only [Prod.mk.injEq] at h
    intro d hd
    rw [← h.2]
    exact hd

/-- One group of batch_create_items never removes a document. -/
theorem createGroup_mono {pk : String} {its : List Item} {s : Store}
    {r : Except SvcError (List Item)} {s1 : Store}
    (h : createGroup pk its s = (r, s1)) :
    ∀ d ∈ s.docs, d ∈ s1.docs := by
  unfold createGroup at h
  cases hexec : Container.execute_item_batch (its.map fun i => BatchOp.create (itemToDoc i)) pk s with
  | mk res s2 =>
    rw [hexec] at h
    cases res with
    | ok ds =>
      dsimp only at h
      have hmono := execute_create_mono hexec
      cases hp : parseAll ds with
      | ok parsed => rw [hp] at h; simp only [Prod.mk.injEq] at h; rw [← h.2]; exact hmono
      | error m => rw [hp] at h; simp only [Prod.mk.injEq] at h; rw [← h.2]; exact hmono
    | error i =>
      dsimp only at h
      simp only [Prod.mk.injEq] at h
      rw [← h.2]
      exact execute_create_mono hexec

/-- A successful group of batch_create_items returns exactly the group's
items and issues exactly one batch call. -/
theorem createGroup_ok {pk : String} {its : List Item} {s : Store}
    {parsed : List Item} {s1 : Store}
    (h : createGroup pk its s = (Except.ok parsed, s1)) :
    parsed = its ∧ s1.batchCalls = s.batchCalls + 1 := by
  unfold createGroup at h
  cases hexec : Container.execute_item_batch (its.map fun i => BatchOp.create (itemToDoc i)) pk s with
  | mk res s2 =>
    rw [hexec] at h
    cases res with
    | ok ds =>
      dsimp only at h
      cases hp : parseAll ds with
      | ok ps =>
        rw [hp] at h
        simp only [Prod.mk.injEq, Except.ok.injEq] at h
        constructor
        · rw [← h.1]
          unfold Container.execute_item_batch at hexec
          split at hexec
          · rename_i ds0 s0 heq
            simp only [Prod.mk.injEq, Except.ok.injEq] at hexec
            rw [← hexec.1] at hp
            exact runBatch_create_parse its s 0 ds0 s0 ps heq hp
          · exact absurd hexec (by simp)
        · unfold Container.execute_item_batch at hexec
          split at hexec
          · simp only [Prod.mk.injEq, Except.ok.injEq] at hexec
            rw [← h.2, ← hexec.2]
          · exact absurd hexec (by simp)
      | error m => rw [hp] at h; exact absurd h (by simp)
    | error i =>
      dsimp only at h
      exact absurd h (by simp)

/-- Processing groups preserves documents whenever each call does: what an
earlier group committed stays committed through later groups. -/
theorem runGroups_mono {f : String → List α → Store → Except SvcError (List β) × Store}
    (hf : ∀ pk xs s r s1, f pk xs s = (r, s1) → ∀ d ∈ Store.docs s, d ∈ Store.docs s1) :
    ∀ (gs : List (String × List α)) (s : Store) (r : Except SvcError (List β)) (s' : Store),
      runGroups f gs s = (r, s') → ∀ d ∈ s.docs, d ∈ s'.docs := by
  intro gs
  induction gs with
  | nil =>
    intro s r s' h d hd
    simp only [runGroups, Prod.mk.injEq] at h
    rw [← h.2]
    exact hd
  | cons g rest ih =>
    obtain ⟨pk, xs⟩ := g
    intro s r s' h d hd
    simp only [runGroups] at h
    cases hcall : f pk xs s with
    | mk res s1 =>
      rw [hcall] at h
      cases res with
      | ok ys =>
        dsimp only at h
        have h1 := hf pk xs s _ s1 hcall d hd
        cases hrec : runGroups f rest s1 with
        | mk res2 s2 =>
          rw [hrec] at h
          cases res2 with
          | ok more =>
            dsimp only at h
            simp only [Prod.mk.injEq] at h
            rw [← h.2]
            exact ih s1 _ s2 hrec d h1
          | error e =>
            dsimp only at h
            simp only [Prod.mk.injEq] at h
            rw [← h.2]
            exact ih s1 _ s2 hrec d h1
      | error e =>
        dsimp only at h
        simp only [Prod.mk.injEq] at h
        rw [← h.2]
        exact hf pk xs s _ s1 hcall d hd

/-- When all groups succeed, the result is the concatenation of the groups
in order and one batch call was issued per group. -/
theorem runGroups_ok {α : Type} {f : String → List α → Store → Except SvcError (List α) × Store}
    (hf : ∀ pk xs s parsed s1, f pk xs s = (Except.ok parsed, s1) →
          parsed = xs ∧ Store.batchCalls s1 = Store.batchCalls s + 1) :
    ∀ (gs : List (String × List α)) (s : Store) (res : List α) (s' : Store),
      runGroups f gs s = (Except.ok res, s') →
      res = (gs.map Prod.snd).join
      ∧ s'.batchCalls = s.batchCalls + gs.length := by
  intro gs
  induction gs with
  | nil =>
    intro s res s' h
    simp only [runGroups, Prod.mk.injEq, Except.ok.injEq] at h
    constructor
    · rw [← h.1]; rfl
    · rw [← h.2]; rfl
  | cons g rest ih =>
    obtain ⟨pk, xs⟩ := g
    intro s res s' h
    simp only [runGroups] at h
    cases hcall : f pk xs s with
    | mk r0 s1 =>
      rw [hcall] at h
      cases r0 with
      | ok ys =>
        dsimp only at h
        cases hrec : runGroups f rest s1 with
        | mk r2 s2 =>
          rw [hrec] at h
          cases r2 with
          | ok more =>
            dsimp only at h
            simp only [Prod.mk.injEq, Except.ok.injEq] at h
            obtain ⟨hys, hcalls⟩ := hf pk xs s ys s1 hcall
            obtain ⟨hmore, hcalls2⟩ := ih s1 more s2 hrec
            constructor
            · rw [← h.1, hys, hmore]
              simp [List.flatten]
            · rw [← h.2, hcalls2, hcalls]
              simp only [List.length_cons]
              omega
          | error e => exact absurd h (by simp)
      | error e =>
        dsimp only at h
        exact absurd h (by simp)

/-- Inserting an element keeps every group homogeneous for the key. -/
theorem addToGroups_inv {α : Type} {key : α → String}
    {gs : List (String × List α)} {x : α}
    (h : ∀ pk xs, (pk, xs) ∈ gs → ∀ y ∈ xs, key y = pk) :
    ∀ pk xs, (pk, xs) ∈ addToGroups key gs x → ∀ y ∈ xs, key y = pk := by
  induction gs with
  | nil =>
    intro pk xs hmem y hy
    simp only [addToGroups, List.mem_singleton, Prod.mk.injEq] at hmem
    obtain ⟨h1, h2⟩ := hmem
    subst h2
    simp only [List.mem_singleton] at hy
    subst hy
    exact h1.symm
  | cons g rest ih =>
    obtain ⟨c, cs⟩ := g
    intro pk xs hmem y hy
    simp only [addToGroups] at hmem
    by_cases hc : c = key x
    · rw [if_pos hc] at hmem
      simp only [List.mem_cons, Prod.mk.injEq] at hmem
      rcases hmem with ⟨h1, h2⟩ | hmem
      · subst h2
        simp only [List.mem_append, List.mem_singleton] at hy
        rcases hy with hy | hy
        · rw [h1]
          exact h c cs (List.mem_cons_self _ _) y hy
        · subst hy
          rw [h1, hc]
      · exact h pk xs (List.mem_cons_of_mem _ hmem) y hy
    · rw [if_neg hc] at hmem
      simp only [List.mem_cons] at hmem
      rcases hmem with hmem | hmem
      · have : (pk, xs) ∈ (c, cs) :: rest := by rw [hmem]; exact List.mem_cons_self _ _
        exact h pk xs this y hy
      · exact ih (fun pk xs hm => h pk xs (List.mem_cons_of_mem _ hm)) pk xs hmem y hy

/-- Every group built by groupByKey holds only elements whose key is the
group's key. -/
theorem groupByKey_inv {α : Type} (key : α → String) (items : List α) :
    ∀ pk xs, (pk, xs) ∈ groupByKey key items → ∀ y ∈ xs, key y = pk := by
  have main : ∀ (l : List α) (gs : List (String × List α)),
      (∀ pk xs, (pk, xs) ∈ gs → ∀ y ∈ xs, key y = pk) →
      ∀ pk xs, (pk, xs) ∈ l.foldl (addToGroups key) gs → ∀ y ∈ xs, key y = pk := by
    intro l
    induction l with
    | nil => intro gs h; exact h
    | cons x rest ih =>
      intro gs h
      simp only [List.foldl_cons]
      exact ih (addToGroups key gs x) (addToGroups_inv h)
  intro pk xs hmem
  exact main items [] (by simp) pk xs hmem

/-- Inserting an element into the groups appends it, up to permutation. -/
theorem addToGroups_flatten_perm {α : Type} (key : α → String)
    (gs : List (String × List α)) (x : α) :
    List.Perm (((addToGroups key gs x).map Prod.snd).flatten)
      ((gs.map Prod.snd).flatten ++ [x]) := by
  induction gs with
  | nil => simp [addToGroups]
  | cons g rest ih =>
    obtain ⟨c, cs⟩ := g
    simp only [addToGroups]
    by_cases hc : c = key x
    · rw [if_pos hc]
      simp only [List.map_cons, List.flatten_cons]
      rw [List.append_assoc cs [x], List.append_assoc cs]
      exact List.Perm.append_left cs (List.perm_append_comm)
    · rw [if_neg hc]
      simp only [List.map_cons, List.flatten_cons]
      have h1 : List.Perm (cs ++ ((addToGroups key rest x).map Prod.snd).flatten)
          (cs ++ ((rest.map Prod.snd).flatten ++ [x])) := List.Perm.append_left cs ih
      have h2 : cs ++ ((rest.map Prod.snd).flatten ++ [x])
          = (cs ++ (rest.map Prod.snd).flatten) ++ [x] := (List.append_assoc _ _ _).symm
      exact h2 ▸ h1

/-- The concatenation of the groups is a permutation of the input list:
grouping partitions the input, losing and duplicating nothing. -/
theorem groupByKey_flatten_perm {α : Type} (key : α → String) (items : List α) :
    List.Perm (((groupByKey key items).map Prod.snd).flatten) items := by
  have main : ∀ (l : List α) (gs : List (String × List α)),
      List.Perm (((l.foldl (addToGroups key) gs).map Prod.snd).flatten)
        ((gs.map Prod.snd).flatten ++ l) := by
    intro l
    induction l with
    | nil => intro gs; simp
    | cons x rest ih =>
      intro gs
      simp only [List.foldl_cons]
      have p1 := ih (addToGroups key gs x)
      have p2 := (addToGroups_flatten_perm key gs x).append_right rest
      have p3 := p1.trans p2
      have he : ((gs.map Prod.snd).flatten ++ [x]) ++ rest
          = (gs.map Prod.snd).flatten ++ (x :: rest) := by simp
      exact he ▸ p3
  have := main items []
  simpa using this

/-- C3: batchCreate partitions its input by category (the groups are
homogeneous and their concatenation is a permutation of the input) and
issues one transactional create batch per group; a failing batch call is
rolled back as a whole, leaving the container documents unchanged by that
call; documents committed by earlier groups stay committed whatever
happens later; and on overall success the result is the concatenation of
the groups in group-then-item order, with exactly one batch call issued
per category group. -/
theorem batch_create_group_semantics :
    (∀ items : List Item,
      List.Perm (((groupByCategory items).map Prod.snd).flatten) items
      ∧ ∀ pk its, (pk, its) ∈ groupByCategory items → ∀ it ∈ its, it.category = pk)
    ∧ (∀ (ops : List BatchOp) (pk : String) (s : Store) (i : Nat) (s' : Store),
        Container.execute_item_batch ops pk s = (Except.error i, s') →
        s'.docs = s.docs)
    ∧ (∀ (items : List Item) (s : Store) (r : Except SvcError (List Item)) (s' : Store),
        CosmosService.batch_create_items items s = (r, s') →
        ∀ d ∈ s.docs, d ∈ s'.docs)
    ∧ (∀ (items : List Item) (s : Store) (res : List Item) (s' : Store),
        CosmosService.batch_create_items items s = (Except.ok res, s') →
        res = ((groupByCategory items).map Prod.snd).flatten
        ∧ s'.batchCalls = s.batchCalls + (groupByCategory items).length) := by
  refine ⟨?_, ?_, ?_, ?_⟩
  · intro items
    exact ⟨groupByKey_flatten_perm Item.category items, groupByKey_inv Item.category items⟩
  · intro ops pk s i s' h
    exact execute_error_docs h
  · intro items s r s' h
    exact runGroups_mono (fun pk xs s0 r0 s1 hc => createGroup_mono hc)
      (groupByCategory items) s r s' h
  · intro items s res s' h
    exact runGroups_ok (fun pk xs s0 parsed s1 hc => createGroup_ok hc)
      (groupByCategory items) s res s' h

/-- Witness for C3 at a concrete input: creating one item in an empty
store succeeds and the result is the concatenation of the groups. -/
theorem batch_create_group_semantics_witness :
    CosmosService.batch_create_items [itemW] { docs := [] }
        = (Except.ok [itemW], { docs := [docW], nextEtag := 1, batchCalls := 1 })
    ∧ [itemW] = ((groupByCategory [itemW]).map Prod.snd).flatten :=
  ⟨rfl, (batch_create_group_semantics.2.2.2 [itemW] { docs := [] } [itemW]
      { docs := [docW], nextEtag := 1, batchCalls := 1 } rfl).1⟩

/-- The encoded document of an Item carries the item's id. -/
theorem docGetD_itemToDoc_id (it : Item) :
    docGetD (itemToDoc it) "id" = Value.str it.id := rfl

/-- The encoded document of an Item carries the item's category. -/
theorem docGetD_itemToDoc_category (it : Item) :
    docGetD (itemToDoc it) "category" = Value.str it.category := rfl

/-- An unconditional replace of an existing document succeeds and installs
the body with a fresh version token. -/
theorem replace_item_none_ok {id : String} {body : Doc} {pk : String}
    {s : Store} {d : Doc}
    (hfind : findDoc s id pk = some d)
    (hid : docGetD body "id" = Value.str id)
    (hcat : docGetD body "category" = Value.str pk) :
    Container.replace_item id body pk none s
      = Except.ok (docSet body "_etag" (etagValue s.nextEtag),
          { docs := replaceDocs s.docs id pk (docSet body "_etag" (etagValue s.nextEtag)),
            nextEtag := s.nextEtag + 1,
            batchCalls := s.batchCalls }) := by
  simp only [Container.replace_item, hfind, hid, hcat]
  simp

/-- C4 (code bug): an update that supplies any expectedVersion — a stale
token ("9") and equally the store's current token ("0") — raises the
uncaught AttributeError while building the request options (the source
reads exceptions.MatchConditions.IfNotModified, an attribute the
azure.cosmos.exceptions module does not have), before any store call: it
never signals the concurrency-conflict ValueError the claim states,
though the stored item is indeed left unchanged; an update with no
expectedVersion is unconditional and succeeds, replacing the document and
stamping updated_at. -/
theorem update_etag_attribute_error_eval :
    CosmosService.update_item itemW (some "9") 11 storeW
      = (Except.error (SvcError.attributeError matchConditionsMsg), storeW)
    ∧ CosmosService.update_item itemW (some "0") 11 storeW
      = (Except.error (SvcError.attributeError matchConditionsMsg), storeW)
    ∧ CosmosService.update_item itemW none 11 storeW
      = (Except.ok { itemW with updated_at := some 11 },
         { docs := [docSet (itemToDoc { itemW with updated_at := some 11 })
             "_etag" (etagValue 1)],
           nextEtag := 2, batchCalls := 0 }) :=
  ⟨rfl, rfl, rfl⟩

/-- Setting a key makes it readable. -/
theorem docGet_docSet_self (d : Doc) (k : String) (v : Value) :
    docGet (docSet d k v) k = some v := by
  induction d with
  | nil => simp [docSet, docGet]
  | cons kv rest ih =>
    obtain ⟨k', v'⟩ := kv
    by_cases h : k' = k
    · simp [docSet, docGet, h]
    · simp [docSet, docGet, h, ih]

/-- Setting one key leaves every other key unchanged. -/
theorem docGet_docSet_ne (d : Doc) {k k' : String} (v : Value) (h : k' ≠ k) :
    docGet (docSet d k' v) k = docGet d k := by
  induction d with
  | nil => simp [docSet, docGet, h]
  | cons kv rest ih =>
    obtain ⟨k0, v0⟩ := kv
    by_cases h0 : k0 = k'
    · simp [docSet, docGet, h0, h]
    · by_cases h1 : k0 = k
      · simp [docSet, docGet, h0, h1, Ne.symm h]
      · simp [docSet, docGet, h0, h1, ih]

/-- Merging the fieldChanges dict over a document leaves every key not
present in the changes unchanged. -/
theorem docGet_mergeAll (updates : List (String × Value)) (d : Doc)
    (k : String) (h : k ∉ updates.map Prod.fst) :
    docGet (updates.foldl (fun d0 kv => docSet d0 kv.1 kv.2) d) k = docGet d k := by
  induction updates generalizing d with
  | nil => rfl
  | cons kv rest ih =>
    obtain ⟨k0, v0⟩ := kv
    simp only [List.map_cons, List.mem_cons] at h
    push_neg at h
    simp only [List.foldl_cons]
    rw [ih (docSet d k0 v0) h.2]
    exact docGet_docSet_ne d v0 (fun he => h.1 he.symm)

/-- A key absent from the fieldChanges has no value there. -/
theorem updatesGet_none (updates : List (String × Value)) (k : String)
    (h : k ∉ updates.map Prod.fst) : updatesGet updates k = none := by
  unfold updatesGet
  rw [List.find?_eq_none.2]
  · rfl
  · intro kv hkv
    simp only [decide_eq_true_eq]
    intro he
    exact h (List.mem_map.2 ⟨kv, hkv, he⟩)

/-- Replacing the found document makes the replacement the found one,
provided the replacement still matches the key. -/
theorem find?_replaceDocs {id pk : String} {nd : Doc}
    (hnd : docMatches id pk nd = true) :
    ∀ (docs : List Doc) (d : Doc),
      docs.find? (docMatches id pk) = some d →
      (replaceDocs docs id pk nd).find? (docMatches id pk) = some nd := by
  intro docs
  induction docs with
  | nil => intro d h; exact Option.noConfusion h
  | cons d0 rest ih =>
    intro d h
    by_cases h0 : docMatches id pk d0 = true
    · simp only [replaceDocs, if_pos h0]
      simp [List.find?_cons, hnd]
    · simp only [replaceDocs, if_neg h0]
      rw [List.find?_cons_of_neg _ (by simp [h0])] at h
      rw [List.find?_cons_of_neg _ (by simp [h0])]
      exact ih d h

/-- C5: a patch whose fieldChanges touch none of id, category, created_at
stores a merged document in which every field not named in fieldChanges
(other than the service-managed updated_at and the store-managed version
token) keeps exactly its previously stored value, and whose updated_at is
set by the service to the current time — strictly greater than the
previously stored updated_at whenever the clock has advanced past it. -/
theorem patch_merge_frame
    (item_id category : String) (updates : List (String × Value))
    (now : Time) (s : Store) (d : Doc)
    (hfind : findDoc s item_id category = some d)
    (hid : "id" ∉ updates.map Prod.fst)
    (hcat : "category" ∉ updates.map Prod.fst)
    (hcreated : "created_at" ∉ updates.map Prod.fst) :
    ∃ d',
      findDoc (CosmosService.patch_item item_id category updates none now s).2
          item_id category = some d'
      ∧ (∀ k, k ∉ updates.map Prod.fst → k ≠ "updated_at" → k ≠ "_etag" →
          docGet d' k = docGet d k)
      ∧ docGet d' "updated_at" = some (Value.time now)
      ∧ (∀ t0, docGet d "updated_at" = some (Value.time t0) → t0 < now →
          ∃ t1, docGet d' "updated_at" = some (Value.time t1) ∧ t0 < t1) := by
  have hmatch : docMatches item_id category d = true := List.find?_some hfind
  have hm := of_decide_eq_true hmatch
  have hcatD : docGetD d "category" = Value.str category := by
    unfold docGetD
    rw [hm.2]
    rfl
  have hviol : createdAtViolation updates d = false := by
    unfold createdAtViolation
    rw [updatesGet_none updates _ hcreated]
  have hmergedId : docGet (updates.foldl (fun d0 kv => docSet d0 kv.1 kv.2) d) "id"
      = some (Value.str item_id) := by
    rw [docGet_mergeAll updates d _ hid, hm.1]
  have hmergedCat : docGet (updates.foldl (fun d0 kv => docSet d0 kv.1 kv.2) d) "category"
      = some (Value.str category) := by
    rw [docGet_mergeAll updates d _ hcat, hm.2]
  have hm2Id : docGetD (docSet (updates.foldl (fun d0 kv => docSet d0 kv.1 kv.2) d)
      "updated_at" (Value.time now)) "id" = Value.str item_id := by
    unfold docGetD
    rw [docGet_docSet_ne _ _ (by decide : "updated_at" ≠ "id"), hmergedId]
    rfl
  have hm2Cat : docGetD (docSet (updates.foldl (fun d0 kv => docSet d0 kv.1 kv.2) d)
      "updated_at" (Value.time now)) "category" = Value.str category := by
    unfold docGetD
    rw [docGet_docSet_ne _ _ (by decide : "updated_at" ≠ "category"), hmergedCat]
    rfl
  have hpatch : (CosmosService.patch_item item_id category updates none now s).2
      = { docs := replaceDocs s.docs item_id category
            (docSet (docSet (updates.foldl (fun d0 kv => docSet d0 kv.1 kv.2) d)
              "updated_at" (Value.time now)) "_etag" (etagValue s.nextEtag)),
          nextEtag := s.nextEtag + 1,
          batchCalls := s.batchCalls } := by
    simp only [CosmosService.patch_item, Container.read_item, hfind]
    simp only [hcatD, ne_eq, not_true_eq_false, if_false, ite_false,
               if_neg (by simp : ¬ (Value.str category ≠ Value.str category)),
               hviol, Bool.false_eq_true]
    rw [replace_item_none_ok hfind hm2Id hm2Cat]
    dsimp only
    cases hdp : docToItem (docSet (docSet (updates.foldl (fun d0 kv => docSet d0 kv.1 kv.2) d)
        "updated_at" (Value.time now)) "_etag" (etagValue s.nextEtag)) with
    | ok it => rfl
    | error m => rfl
  refine ⟨docSet (docSet (updates.foldl (fun d0 kv => docSet d0 kv.1 kv.2) d)
      "updated_at" (Value.time now)) "_etag" (etagValue s.nextEtag), ?_, ?_, ?_, ?_⟩
  · rw [hpatch]
    unfold findDoc
    refine find?_replaceDocs ?_ s.docs d hfind
    refine decide_eq_true ?_
    constructor
    · rw [docGet_docSet_ne _ _ (by decide : "_etag" ≠ "id")]
      rw [docGet_docSet_ne _ _ (by decide : "updated_at" ≠ "id")]
      exact hmergedId
    · rw [docGet_docSet_ne _ _ (by decide : "_etag" ≠ "category")]
      rw [docGet_docSet_ne _ _ (by decide : "updated_at" ≠ "category")]
      exact hmergedCat
  · intro k hk hk1 hk2
    rw [docGet_docSet_ne _ _ (fun he => hk2 he.symm)]
    rw [docGet_docSet_ne _ _ (fun he => hk1 he.symm)]
    exact docGet_mergeAll updates d k hk
  · rw [docGet_docSet_ne _ _ (by decide : "_etag" ≠ "updated_at")]
    exact docGet_docSet_self _ _ _
  · intro t0 ht0 hlt
    refine ⟨now, ?_, hlt⟩
    rw [docGet_docSet_ne _ _ (by decide : "_etag" ≠ "updated_at")]
    exact docGet_docSet_self _ _ _

/-- The encoded document of an Item exposes the id field. -/
theorem docGet_itemToDoc_id (it : Item) :
    docGet (itemToDoc it) "id" = some (Value.str it.id) := rfl

/-- Witness for C5 at a concrete input: patching quantity to 5 on the
stored Widget leaves all other fields as stored and stamps updated_at. -/
theorem patch_merge_frame_witness :
    findDoc storeW "w1" "tools" = some docW
    ∧ (∃ d',
        findDoc (CosmosService.patch_item "w1" "tools"
            [("quantity", Value.num 5)] none 11 storeW).2 "w1" "tools" = some d'
        ∧ (∀ k, k ∉ ([("quantity", Value.num 5)].map Prod.fst) →
            k ≠ "updated_at" → k ≠ "_etag" → docGet d' k = docGet docW k)
        ∧ docGet d' "updated_at" = some (Value.time 11)
        ∧ (∀ t0, docGet docW "updated_at" = some (Value.time t0) → t0 < 11 →
            ∃ t1, docGet d' "updated_at" = some (Value.time t1) ∧ t0 < t1)) :=
  ⟨rfl, patch_merge_frame "w1" "tools" [("quantity", Value.num 5)] 11 storeW docW
    rfl (by decide) (by decide) (by decide)⟩

/-- Counterexample for C6: creating the Widget again over a store that
already holds it makes the HTTP layer answer 400, not the 409 the claim
states (the handler maps every ValueError to 400). -/
theorem create_conflict_status_counterexample :
    httpCreateItem itemW storeW
      = (HttpResponse.failure 400 ("Item with id " ++ "w1" ++ " already exists"), storeW)
    ∧ (httpCreateItem itemW storeW).1.statusCode ≠ 409 := ⟨rfl, by decide⟩

/-- C6 (amended): a create whose (id, category) identity already exists
signals the already-exists ValueError and the HTTP layer returns 400;
a payload missing a required attribute (name, category, price or cost)
fails Item validation, as does a status outside the allowed set. -/
theorem create_conflict_semantics :
    (∀ (item : Item) (s : Store) (d : Doc),
      findDoc s item.id item.category = some d →
      CosmosService.create_item item s
        = (Except.error (SvcError.valueError
            ("Item with id " ++ item.id ++ " already exists")), s)
      ∧ httpCreateItem item s
        = (HttpResponse.failure 400
            ("Item with id " ++ item.id ++ " already exists"), s))
    ∧ (∀ (genId : String) (now : Time) (p : Payload),
        p.missingRequired = true →
        ∃ m, Item.fromPayload genId now p = Except.error m)
    ∧ (∀ (genId : String) (now : Time) (p : Payload) (st : String),
        p.status = some st → validStatus st = false →
        ∃ m, Item.fromPayload genId now p = Except.error m) := by
  refine ⟨?_, ?_, ?_⟩
  · intro item s d hfind
    have hsvc : CosmosService.create_item item s
        = (Except.error (SvcError.valueError
            ("Item with id " ++ item.id ++ " already exists")), s) := by
      simp only [CosmosService.create_item, Container.create_item,
                 docGet_itemToDoc_id, docGetD_itemToDoc_category, hfind]
      simp
    exact ⟨hsvc, by simp only [httpCreateItem, hsvc]⟩
  · intro genId now p h
    obtain ⟨pid, pname, pcat, pdesc, pq, pprice, pcost, pstatus⟩ := p
    cases pname <;> cases pcat <;> cases pprice <;> cases pcost <;>
      simp_all [Item.fromPayload, Payload.missingRequired]
  · intro genId now p st h1 h2
    obtain ⟨pid, pname, pcat, pdesc, pq, pprice, pcost, pstatus⟩ := p
    cases pname <;> cases pcat <;> cases pprice <;> cases pcost <;>
      simp_all [Item.fromPayload, Payload.missingRequired]

/-- Witness for C6 at a concrete input: re-creating the stored Widget is
rejected with the already-exists error. -/
theorem create_conflict_semantics_witness :
    findDoc storeW itemW.id itemW.category = some docW
    ∧ CosmosService.create_item itemW storeW
        = (Except.error (SvcError.valueError
            ("Item with id " ++ itemW.id ++ " already exists")), storeW) :=
  ⟨rfl, (create_conflict_semantics.1 itemW storeW docW rfl).1⟩

/-- C9 (amended): get and delete absorb the store's not-found error into
their return value, but patch wraps neither its read nor its replace in
any translation, so the store's not-found exception for a missing item
crosses the service boundary untranslated. -/
theorem store_error_translation_semantics :
    (∀ (item_id category : String) (updates : List (String × Value))
        (etag : Option String) (now : Time) (s : Store),
      findDoc s item_id category = none →
      CosmosService.patch_item item_id category updates etag now s
        = (Except.error (SvcError.raw StoreError.notFound), s))
    ∧ (∀ (item_id category : String) (s : Store),
        findDoc s item_id category = none →
        CosmosService.get_item item_id category s = (Except.ok none, s))
    ∧ (∀ (item_id category : String) (s : Store),
        findDoc s item_id category = none →
        CosmosService.delete_item item_id category s = (Except.ok false, s)) := by
  refine ⟨?_, ?_, ?_⟩
  · intro item_id category updates etag now s h
    simp only [CosmosService.patch_item, Container.read_item, h]
  · intro item_id category s h
    simp only [CosmosService.get_item, Container.read_item, h]
  · intro item_id category s h
    simp only [CosmosService.delete_item, Container.delete_item, h]

/-- Witness for C9 at a concrete input: patching a missing id propagates
the raw store not-found error. -/
theorem store_error_translation_semantics_witness :
    findDoc { docs := [] } "x" "tools" = none
    ∧ CosmosService.patch_item "x" "tools" [] none 0 { docs := [] }
        = (Except.error (SvcError.raw StoreError.notFound), { docs := [] }) :=
  ⟨rfl, store_error_translation_semantics.1 "x" "tools" [] none 0 _ rfl⟩

/-- Counterexample for C9: a patch against an empty store surfaces the raw
store not-found exception to the HTTP layer instead of a translated
service error. -/
theorem patch_raw_error_counterexample :
    CosmosService.patch_item "w1" "tools" [("quantity", Value.num 5)] none 11
        { docs := [] }
      = (Except.error (SvcError.raw StoreError.notFound), { docs := [] }) := rfl

/-- The stamping loop overwrites the updated_at of the item at position i
with the reading of clock call j + i. -/
theorem stampFrom_getElem (clock : Nat → Time) :
    ∀ (items : List Item) (j i : Nat) (it : Item),
      items[i]? = some it →
      (stampFrom clock j items)[i]? = some { it with updated_at := some (clock (j + i)) } := by
  intro items
  induction items with
  | nil => intro j i it h; simp at h
  | cons x rest ih =>
    intro j i it h
    cases i with
    | zero =>
      simp only [List.getElem?_cons_zero, Option.some.injEq] at h
      subst h
      simp [stampFrom]
    | succ i0 =>
      simp only [List.getElem?_cons_succ] at h
      have := ih (j + 1) i0 it h
      simp only [stampFrom, List.getElem?_cons_succ]
      rw [this]
      have harith : j + 1 + i0 = j + (i0 + 1) := by omega
      rw [harith]

/-- C7 (amended): the batch-update handler stamps each item of the request
body, in order, with the value of its own datetime.now call — the item at
position i receives the i-th clock reading, so the stamps need not be
equal across items — and only then issues the service call on the fully
stamped list. -/
theorem batch_update_stamp_semantics :
    (∀ (clock : Nat → Time) (items : List Item) (s : Store),
      httpBatchUpdateItems clock items s
        = toHttp 200 (CosmosService.batch_update_items (stampUpdatedAt clock items) s))
    ∧ (∀ (clock : Nat → Time) (items : List Item) (i : Nat) (it : Item),
        items[i]? = some it →
        (stampUpdatedAt clock items)[i]?
          = some { it with updated_at := some (clock i) }) := by
  constructor
  · intro clock items s
    rfl
  · intro clock items i it h
    have := stampFrom_getElem clock items 0 i it h
    rw [Nat.zero_add] at this
    exact this

/-- Witness for C7 at a concrete input: the single item of a one-element
batch is stamped with the first clock reading. -/
theorem batch_update_stamp_semantics_witness :
    ([itemW] : List Item)[0]? = some itemW
    ∧ (stampUpdatedAt (fun i => i) [itemW])[0]?
        = some { itemW with updated_at := some 0 } :=
  ⟨rfl, batch_update_stamp_semantics.2 (fun i => i) [itemW] 0 itemW rfl⟩

/-- Counterexample for C7: with a clock that advances between calls, the
two items of one batch-update request are stamped 0 and 1 — not the same
single current-time value the claim states. -/
theorem batch_update_stamp_counterexample :
    stampUpdatedAt (fun i => i) [itemW, itemE1]
        = [{ itemW with updated_at := some 0 }, { itemE1 with updated_at := some 1 }]
    ∧ some (0 : Time) ≠ some (1 : Time) := ⟨rfl, by decide⟩

/-- Counterexample for C8: the spec's Widget payload (name, category,
price only) does not construct an Item — the model also requires cost,
which has no default — so the create cannot succeed as claimed. -/
theorem create_widget_payload_counterexample :
    Item.fromPayload "uuid-1" 0
      { name := some "Widget", category := some "tools", price := some 999 }
      = Except.error "validation error: missing required field" := rfl

/-- C8 (amended): once the required cost is supplied, the Widget payload
constructs an item with the generated id, status in_stock, created_at set
to the creation time and updated_at null. -/
theorem create_widget_payload_amended (genId : String) (now : Time) (c : Int) :
    Item.fromPayload genId now
      { name := some "Widget", category := some "tools", price := some 999,
        cost := some c }
      = Except.ok { id := genId, name := "Widget", category := "tools",
                    price := 999, cost := c, created_at := now } := rfl

/-- C1 (code bug): a patch whose fieldChanges set category to a different
value is not rejected by the service's immutable-field check — the check
compares the stored category against the partition-key argument, which
always agree — so the merged document with the changed category is sent to
the store, whose partition-key-mismatch error then crosses the boundary
untranslated; and an update naming a different category fails with the
not-found ValueError (the existence read happens at the new category), not
with an immutable-field violation.  In both cases the stored item is
unchanged. -/
theorem patch_category_bypass_eval :
    CosmosService.patch_item "w1" "tools"
        [("category", Value.str "electronics")] none 11 storeW
      = (Except.error (SvcError.raw (StoreError.http 400)), storeW)
    ∧ CosmosService.update_item { itemW with category := "electronics" } none 11 storeW
      = (Except.error (SvcError.valueError "Item with id w1 not found"), storeW) :=
  ⟨rfl, rfl⟩

/-- C2 (code bug): listing the electronics category with pageSize 1 over a
store holding two electronics items returns both items and no continuation
token — the service drains the whole query iterator and the token header
lookup always yields None — contradicting the one-item window plus token
the claim states. -/
theorem list_pagination_eval :
    CosmosService.list_items (some "electronics") 1 none storeE
      = (Except.ok ([itemE1, itemE2], none), storeE) := rfl

/-- C10: on the empty input list each batch operation returns the empty
list and the identical store — category grouping yields no groups, so no
batch call is issued (the store's batch-call counter is unchanged) and no
error is signalled. -/
theorem batch_empty_noop (s : Store) :
    CosmosService.batch_create_items [] s = (Except.ok [], s)
    ∧ CosmosService.batch_update_items [] s = (Except.ok [], s)
    ∧ CosmosService.batch_read_items [] s = (Except.ok [], s)
    ∧ CosmosService.batch_delete_items [] s = (Except.ok [], s) :=
  ⟨rfl, rfl, rfl, rfl⟩
